import Mathlib

/-!
Verification development for the Municipal-Debt repository's financial
engine (src/lib/finance.ts and the variant engine with debt types).

Numbers are modelled over ℚ (exact arithmetic in place of IEEE doubles);
`termYears` and `graceYears` are ℕ, matching the spec's data model
(integers, with `Math.floor`/`Math.max(0, ...)` in the source becoming
the identity / truncated subtraction on ℕ).  JavaScript's
`Number.POSITIVE_INFINITY` sentinel for `capFromInterestOnly` is
modelled by inlining `min(x, +inf) = x` in the `rate ≤ 0` branch, and
separately by a `WithTop ℚ` rendering used to state the capacity claim.
`null` DSCR entries become `Option ℚ`.
-/

namespace MunicipalDebt

inductive PaymentType where
  | annuity
  | equal_principal
deriving DecidableEq, Repr

/-- Input record of src/lib/finance.ts (`Inputs`). -/
structure Inputs where
  localRevenuePAD : ℚ
  balancingFundPerimbangan : ℚ
  otherLegalRevenue : ℚ
  financingReceipts : ℚ
  financingExpenditures : ℚ
  personnelExpenses : ℚ
  goodsServicesExpenses : ℚ
  capitalExpenditures : ℚ
  revGrowth : ℚ
  opexGrowth : ℚ
  rate : ℚ
  termYears : ℕ
  paymentType : PaymentType
  reserveRatio : ℚ
  minDSCR : ℚ
  initReserve : ℚ
  graceYears : ℕ
deriving DecidableEq, Repr

/-- Schedule row (`Row` in src/lib/finance.ts); `dscr` is `number | null`. -/
structure Row where
  year : ℕ
  begBal : ℚ
  interest : ℚ
  principal : ℚ
  debtService : ℚ
  revenue : ℚ
  opex : ℚ
  availForDS : ℚ
  dscr : Option ℚ
  reserveTarget : ℚ
  reserveAlloc : ℚ
  reserveBeg : ℚ
  reserveEnd : ℚ
  surplus : ℚ
deriving DecidableEq, Repr

/-- `pmt(rate, nper, pv, fv = 0, type = 0)` from src/lib/finance.ts. -/
def pmt (rate : ℚ) (nper : ℕ) (pvAmt : ℚ) (fv : ℚ) (type : ℚ) : ℚ :=
  if nper = 0 then 0
  else if rate = 0 then (pvAmt + fv) / (nper : ℚ)
  else
    (rate * (pvAmt * (1 + rate) ^ nper + fv)) /
      ((1 + rate * type) * ((1 + rate) ^ nper - 1))

/-- `pv(rate, nper, pmtAmt, fv = 0, type = 0)` from src/lib/finance.ts;
`Math.pow(1 + rate, -nper)` is the multiplicative inverse of
`(1 + rate) ^ nper` over ℚ. -/
def pv (rate : ℚ) (nper : ℕ) (pmtAmt : ℚ) (fv : ℚ) (type : ℚ) : ℚ :=
  if nper = 0 then 0
  else if rate = 0 then pmtAmt * (nper : ℚ) + fv
  else
    pmtAmt * (1 + rate * type) * ((1 - ((1 + rate) ^ nper)⁻¹) / rate) +
      fv * ((1 + rate) ^ nper)⁻¹

def getTotalRevenue (i : Inputs) : ℚ :=
  i.localRevenuePAD + i.balancingFundPerimbangan + i.otherLegalRevenue

def getNettFinancing (i : Inputs) : ℚ :=
  i.financingReceipts - i.financingExpenditures

def getTotalOpex (i : Inputs) : ℚ :=
  i.personnelExpenses + i.goodsServicesExpenses + i.capitalExpenditures

/-- Result record of `computeCapacity`. -/
structure CapacityResult where
  NOI : ℚ
  totalRevenue : ℚ
  nettFinancing : ℚ
  totalOpex : ℚ
  maxDebtRevenueRule : ℚ
  maxAnnualDS : ℚ
  dscrPV : ℚ
  allowedDebt : ℚ
  binding : String
deriving DecidableEq, Repr

/-- `computeCapacity` from src/lib/finance.ts.  JavaScript's
`capFromInterestOnly = rate > 0 ? maxAnnualDS / rate : +Infinity` followed by
`min` is rendered by dropping the `min` in the infinite branch; the
`pvAnnuityAfterGrace || 0` coercion is the identity over ℚ. -/
def computeCapacity (i : Inputs) : CapacityResult :=
  let totalRevenue := getTotalRevenue i
  let nettFinancing := getNettFinancing i
  let totalOpex := getTotalOpex i
  let NOI := max (totalRevenue + nettFinancing - totalOpex) 0
  let maxDebtRevenueRule := (3 / 4 : ℚ) * totalRevenue
  let maxAnnualDS := NOI / i.minDSCR
  let amortYears := i.termYears - i.graceYears
  let pvAnnuityAfterGrace :=
    if 0 < amortYears then
      pv i.rate amortYears maxAnnualDS 0 0 / (1 + i.rate) ^ i.graceYears
    else 0
  let dscrPV :=
    if 0 < i.rate then min pvAnnuityAfterGrace (maxAnnualDS / i.rate)
    else pvAnnuityAfterGrace
  let allowedDebt := max 0 (min maxDebtRevenueRule dscrPV)
  let binding :=
    if |allowedDebt - maxDebtRevenueRule| < 1 / 1000000 then
      "75% of prior revenue"
    else "DSCR constraint"
  { NOI := NOI
    totalRevenue := totalRevenue
    nettFinancing := nettFinancing
    totalOpex := totalOpex
    maxDebtRevenueRule := maxDebtRevenueRule
    maxAnnualDS := maxAnnualDS
    dscrPV := dscrPV
    allowedDebt := allowedDebt
    binding := binding }

/-- One iteration of the year loop of `buildSchedule` (src/lib/finance.ts,
lines 135-165): builds the row for year `y` from the loop-carried state.
`n` is the total row count, needed for the `y < n` look-ahead guard. -/
def scheduleStep (i : Inputs) (annuityPmt epPrincipal : ℚ) (n y : ℕ)
    (prevBeg revenue opex reserveBeg : ℚ) : Row :=
  let amortYears := i.termYears - i.graceYears
  let inGrace := y ≤ i.graceYears
  let interest := if y ≤ i.termYears then prevBeg * i.rate else 0
  let principal :=
    if ¬ inGrace ∧ y ≤ i.termYears then
      if i.paymentType = PaymentType.annuity then
        max 0 (min prevBeg (annuityPmt - interest))
      else
        max 0 (min prevBeg epPrincipal)
    else 0
  let debtService := if inGrace then interest else interest + principal
  let nextYearDS :=
    if y < n then
      let nextBeg := max (prevBeg - principal) 0
      let nextInterest := nextBeg * i.rate
      let nextPrincipal :=
        if y + 1 ≤ i.graceYears then 0
        else if i.paymentType = PaymentType.annuity ∧ 0 < amortYears then
          max 0 (min nextBeg (annuityPmt - nextInterest))
        else if 0 < amortYears then
          max 0 (min nextBeg epPrincipal)
        else 0
      if y + 1 ≤ i.graceYears then nextInterest else nextInterest + nextPrincipal
    else 0
  let reserveTarget := nextYearDS
  let reserveAlloc := max (reserveTarget - reserveBeg) 0 * i.reserveRatio
  let reserveEnd := reserveBeg + reserveAlloc
  let availForDS := revenue - opex
  let dscr := if 0 < debtService then some (availForDS / debtService) else none
  let surplus := revenue - opex - debtService - reserveAlloc
  { year := y, begBal := prevBeg, interest := interest, principal := principal
    debtService := debtService, revenue := revenue, opex := opex
    availForDS := availForDS, dscr := dscr, reserveTarget := reserveTarget
    reserveAlloc := reserveAlloc, reserveBeg := reserveBeg
    reserveEnd := reserveEnd, surplus := surplus }

/-- The year loop of `buildSchedule`, recursing on the number of remaining
years; the state advance mirrors lines 167-171 of src/lib/finance.ts. -/
def scheduleRows (i : Inputs) (annuityPmt epPrincipal : ℚ) (n : ℕ) :
    ℕ → ℕ → ℚ → ℚ → ℚ → ℚ → List Row
  | 0, _, _, _, _, _ => []
  | fuel + 1, y, prevBeg, revenue, opex, reserveBeg =>
    let r := scheduleStep i annuityPmt epPrincipal n y prevBeg revenue opex reserveBeg
    r :: scheduleRows i annuityPmt epPrincipal n fuel (y + 1)
        (max (prevBeg - r.principal) 0)
        (revenue * (1 + i.revGrowth)) (opex * (1 + i.opexGrowth)) r.reserveEnd

/-- `buildSchedule(i, allowedDebt)` from src/lib/finance.ts.  With ℕ-valued
`termYears` and `graceYears`, `Math.max(0, Math.floor(termYears))` is
`termYears` and `Math.max(0, Math.floor(termYears - graceYears))` is ℕ
truncated subtraction. -/
def buildSchedule (i : Inputs) (allowedDebt : ℚ) : List Row :=
  let n := i.termYears
  let amortYears := i.termYears - i.graceYears
  let annuityPmt :=
    if i.paymentType = PaymentType.annuity ∧ 0 < amortYears then
      pmt i.rate amortYears allowedDebt 0 0
    else 0
  let epPrincipal :=
    if i.paymentType = PaymentType.equal_principal ∧ 0 < amortYears then
      allowedDebt / (amortYears : ℚ)
    else 0
  scheduleRows i annuityPmt epPrincipal n n 1 allowedDebt
    ((getTotalRevenue i + getNettFinancing i) * (1 + i.revGrowth))
    (getTotalOpex i * (1 + i.opexGrowth))
    i.initReserve

/-- `minDSCR(rows)` accumulator loop; `⊤ : WithTop ℚ` models the
`Number.POSITIVE_INFINITY` starting value. -/
def minDSCRAux : List Row → WithTop ℚ → WithTop ℚ
  | [], m => m
  | r :: rs, m =>
    minDSCRAux rs
      (if 0 < r.debtService then
        match r.dscr with
        | some d => min m (d : WithTop ℚ)
        | none => m
      else m)

/-- `minDSCR(rows)` from src/lib/finance.ts: the `isFinite` final check maps
the still-infinite accumulator to the sentinel 0. -/
def minDSCR (rows : List Row) : ℚ :=
  match minDSCRAux rows ⊤ with
  | ⊤ => 0
  | (q : ℚ) => q

/-! ### Variant engine (the source file with `debtType` support)

The variant finance engine adds three revenue components, a single
`operatingExpenses` override with an optional breakdown, and the
`debtType` / `allowedDebt` / `finalDebtTaken` fields.  Its `Row`,
`pmt`, `pv` and `minDSCR` are identical to the ones above and are
shared. -/

inductive DebtType where
  | bond
  | ptsmi_other
deriving DecidableEq, Repr

namespace Variant

/-- Input record of the variant engine (`Inputs` in the debt-type source
file); the optional breakdown fields are `Option ℚ` and the JavaScript
`x || 0` default becomes `Option.getD`. -/
structure Inputs where
  localRevenuePAD : ℚ
  balancingFundPerimbangan : ℚ
  otherTransferCentral : ℚ
  transferSharingTax : ℚ
  otherFinancialAid : ℚ
  otherLegalRevenue : ℚ
  financingReceipts : ℚ
  financingExpenditures : ℚ
  operatingExpenses : ℚ
  personnelExpenses : Option ℚ
  goodsServicesExpenses : Option ℚ
  capitalExpenditures : Option ℚ
  revGrowth : ℚ
  opexGrowth : ℚ
  rate : ℚ
  termYears : ℕ
  paymentType : PaymentType
  debtType : DebtType
  allowedDebt : ℚ
  finalDebtTaken : ℚ
  reserveRatio : ℚ
  minDSCR : ℚ
  initReserve : ℚ
  graceYears : ℕ
deriving DecidableEq, Repr

def getTotalRevenue (i : Inputs) : ℚ :=
  i.localRevenuePAD + i.balancingFundPerimbangan + i.otherTransferCentral +
    i.transferSharingTax + i.otherFinancialAid + i.otherLegalRevenue

def getNettFinancing (i : Inputs) : ℚ :=
  i.financingReceipts - i.financingExpenditures

/-- Variant `getTotalOpex`: `if (i.operatingExpenses) return i.operatingExpenses;`
— a number is truthy in JavaScript exactly when it is nonzero (and not NaN),
so over ℚ the guard is `≠ 0`. -/
def getTotalOpex (i : Inputs) : ℚ :=
  if i.operatingExpenses ≠ 0 then i.operatingExpenses
  else
    (i.personnelExpenses.getD 0) + (i.goodsServicesExpenses.getD 0) +
      (i.capitalExpenditures.getD 0)

/-- `const actualDebt = Math.min(i.finalDebtTaken, i.allowedDebt)` in the
variant `buildSchedule`. -/
def actualDebt (i : Inputs) : ℚ :=
  min i.finalDebtTaken i.allowedDebt

/-- One iteration of the variant `buildSchedule` year loop (the file with
the `debtType` branches on interest and principal). -/
def scheduleStep (i : Inputs) (actual annuityPmt epPrincipal : ℚ) (n y : ℕ)
    (prevBeg revenue opex reserveBeg : ℚ) : Row :=
  let amortYears := i.termYears - i.graceYears
  let inGrace := y ≤ i.graceYears
  let interest :=
    if y ≤ i.termYears then
      if i.debtType = DebtType.bond then actual * i.rate else prevBeg * i.rate
    else 0
  let principal :=
    if ¬ inGrace ∧ y ≤ i.termYears then
      if i.debtType = DebtType.bond then
        max 0 (min prevBeg (actual / (i.termYears : ℚ)))
      else if i.paymentType = PaymentType.annuity then
        max 0 (min prevBeg (annuityPmt - interest))
      else
        max 0 (min prevBeg epPrincipal)
    else 0
  let debtService := if inGrace then interest else interest + principal
  let nextYearDS :=
    if y < n then
      let nextBeg := max (prevBeg - principal) 0
      let nextInterest :=
        if i.debtType = DebtType.bond then actual * i.rate else nextBeg * i.rate
      let nextPrincipal :=
        if y + 1 ≤ i.graceYears then 0
        else if i.debtType = DebtType.bond then
          max 0 (min nextBeg (actual / (i.termYears : ℚ)))
        else if i.paymentType = PaymentType.annuity ∧ 0 < amortYears then
          max 0 (min nextBeg (annuityPmt - nextInterest))
        else if 0 < amortYears then
          max 0 (min nextBeg epPrincipal)
        else 0
      if y + 1 ≤ i.graceYears then nextInterest else nextInterest + nextPrincipal
    else 0
  let reserveTarget := nextYearDS
  let reserveAlloc := max (reserveTarget - reserveBeg) 0 * i.reserveRatio
  let reserveEnd := reserveBeg + reserveAlloc
  let availForDS := revenue - opex
  let dscr := if 0 < debtService then some (availForDS / debtService) else none
  let surplus := revenue - opex - debtService - reserveAlloc
  { year := y, begBal := prevBeg, interest := interest, principal := principal
    debtService := debtService, revenue := revenue, opex := opex
    availForDS := availForDS, dscr := dscr, reserveTarget := reserveTarget
    reserveAlloc := reserveAlloc, reserveBeg := reserveBeg
    reserveEnd := reserveEnd, surplus := surplus }

/-- The variant year loop, recursing on the number of remaining years. -/
def scheduleRows (i : Inputs) (actual annuityPmt epPrincipal : ℚ) (n : ℕ) :
    ℕ → ℕ → ℚ → ℚ → ℚ → ℚ → List Row
  | 0, _, _, _, _, _ => []
  | fuel + 1, y, prevBeg, revenue, opex, reserveBeg =>
    let r := scheduleStep i actual annuityPmt epPrincipal n y prevBeg revenue opex reserveBeg
    r :: scheduleRows i actual annuityPmt epPrincipal n fuel (y + 1)
        (max (prevBeg - r.principal) 0)
        (revenue * (1 + i.revGrowth)) (opex * (1 + i.opexGrowth)) r.reserveEnd

/-- `buildSchedule(i)` of the variant engine: amortizes
`actualDebt = min(finalDebtTaken, allowedDebt)`. -/
def buildSchedule (i : Inputs) : List Row :=
  let n := i.termYears
  let amortYears := i.termYears - i.graceYears
  let actual := actualDebt i
  let annuityPmt :=
    if i.paymentType = PaymentType.annuity ∧ 0 < amortYears then
      pmt i.rate amortYears actual 0 0
    else 0
  let epPrincipal :=
    if i.paymentType = PaymentType.equal_principal ∧ 0 < amortYears then
      actual / (amortYears : ℚ)
    else 0
  scheduleRows i actual annuityPmt epPrincipal n n 1 actual
    ((getTotalRevenue i + getNettFinancing i) * (1 + i.revGrowth))
    (getTotalOpex i * (1 + i.opexGrowth))
    i.initReserve

end Variant

/-! ### Claim C8: the annuity primitives are inverse to each other -/

/-- Claim C8: for `rate > 0`, `n > 0`, `P > 0`,
`pmt(rate, n, pv(rate, n, P)) = P` exactly over exact arithmetic. -/
theorem claim_C8_pmt_pv_inverse (rate : ℚ) (n : ℕ) (P : ℚ)
    (hrate : 0 < rate) (hn : 0 < n) (hP : 0 < P) :
    pmt rate n (pv rate n P 0 0) 0 0 = P := by
  have hne : rate ≠ 0 := ne_of_gt hrate
  have hnne : n ≠ 0 := Nat.pos_iff_ne_zero.mp hn
  have hb : (0 : ℚ) < 1 + rate := by linarith
  have hpow : (1 : ℚ) < (1 + rate) ^ n := one_lt_pow₀ (by linarith) hnne
  have hpow0 : ((1 + rate) ^ n : ℚ) ≠ 0 := ne_of_gt (pow_pos hb n)
  have hpow1 : ((1 + rate) ^ n : ℚ) - 1 ≠ 0 := sub_ne_zero.mpr (ne_of_gt hpow)
  simp only [pmt, pv, if_neg hnne, if_neg hne, mul_zero, add_zero, zero_mul,
    zero_add, mul_one]
  field_simp
  ring

/-- Witness for C8 at `rate = 1/10`, `n = 3`, `P = 7`. -/
theorem claim_C8_witness :
    pmt (1 / 10) 3 (pv (1 / 10) 3 7 0 0) 0 0 = 7 :=
  claim_C8_pmt_pv_inverse (1 / 10) 3 7 (by norm_num) (by norm_num) (by norm_num)

/-! ### Claim C6: the minimum-DSCR reducer -/

/-- The DSCR values of exactly those rows with `debtService > 0` and a
non-null `dscr` (the rows the reducer is claimed to range over). -/
def qualifyingDSCR (rows : List Row) : List ℚ :=
  rows.filterMap (fun r => if 0 < r.debtService then r.dscr else none)

theorem minDSCRAux_eq_min (rows : List Row) :
    ∀ m : WithTop ℚ, minDSCRAux rows m = min m (qualifyingDSCR rows).minimum := by
  induction rows with
  | nil =>
    intro m
    simp [minDSCRAux, qualifyingDSCR, List.minimum_nil, min_eq_left le_top]
  | cons r rs ih =>
    intro m
    by_cases hds : 0 < r.debtService
    · cases hdscr : r.dscr with
      | none =>
        simp [minDSCRAux, hds, hdscr, qualifyingDSCR, List.filterMap_cons, ih]
      | some d =>
        simp only [minDSCRAux, hds, if_pos, hdscr, qualifyingDSCR,
          List.filterMap_cons, if_true, ih, List.minimum_cons]
        rw [min_assoc]
    · simp [minDSCRAux, hds, qualifyingDSCR, List.filterMap_cons, ih]

/-- Claim C6: `minDSCR` returns the minimum of the `dscr` values over exactly
the rows with `debtService > 0` and a defined `dscr`, and the sentinel `0`
when no row qualifies (`minimum = ⊤` on the empty qualifying list, and
`WithTop.untop' 0` realizes the sentinel). -/
theorem claim_C6_minDSCR_is_min (rows : List Row) :
    minDSCR rows = WithTop.untop' 0 (qualifyingDSCR rows).minimum := by
  have h := minDSCRAux_eq_min rows ⊤
  rw [min_eq_right le_top] at h
  rw [minDSCR, h]
  cases (qualifyingDSCR rows).minimum with
  | top => rfl
  | coe q => rfl

/-! ### Claim C9: the binding-constraint label -/

/-- Concrete input exhibiting the absolute-vs-relative tolerance gap:
revenue 10^12, opex 250 000 001 000, zero rate, one-year term, so the DSCR
ceiling undercuts the statutory ceiling by exactly 1000 (absolute), which is
far below the 1e-6 relative band around 7.5 * 10^11. -/
def c9cex : Inputs :=
  { localRevenuePAD := 1000000000000
    balancingFundPerimbangan := 0
    otherLegalRevenue := 0
    financingReceipts := 0
    financingExpenditures := 0
    personnelExpenses := 250000001000
    goodsServicesExpenses := 0
    capitalExpenditures := 0
    revGrowth := 0
    opexGrowth := 0
    rate := 0
    termYears := 1
    paymentType := PaymentType.equal_principal
    reserveRatio := 0
    minDSCR := 1
    initReserve := 0
    graceYears := 0 }

/-- Counterexample to C9 as stated: at `c9cex` the allowed debt is within a
1e-6 relative tolerance of `maxDebtRevenueRule`, yet the code labels the
binding constraint as the DSCR rule (its tolerance is absolute, not
relative). -/
theorem claim_C9_counterexample :
    |(computeCapacity c9cex).allowedDebt - (computeCapacity c9cex).maxDebtRevenueRule|
        < (1 / 1000000) * |(computeCapacity c9cex).maxDebtRevenueRule| ∧
      (computeCapacity c9cex).binding ≠ "75% of prior revenue" := by
  constructor
  · norm_num [computeCapacity, c9cex, getTotalRevenue, getNettFinancing, getTotalOpex,
      pv, max_def, min_def, abs]
  · have hbind : (computeCapacity c9cex).binding = "DSCR constraint" := by
      norm_num [computeCapacity, c9cex, getTotalRevenue, getNettFinancing, getTotalOpex,
        pv, max_def, min_def, abs]
    rw [hbind]
    decide

/-- Claim C9 (amended): the binding constraint is labelled as the statutory
75%-of-revenue rule if and only if the allowed debt equals
`maxDebtRevenueRule` within an ABSOLUTE tolerance of 1e-6. -/
theorem claim_C9_amended (i : Inputs) :
    (computeCapacity i).binding = "75% of prior revenue" ↔
      |(computeCapacity i).allowedDebt - (computeCapacity i).maxDebtRevenueRule|
        < 1 / 1000000 := by
  have hb : (computeCapacity i).binding =
      (if |(computeCapacity i).allowedDebt - (computeCapacity i).maxDebtRevenueRule|
          < 1 / 1000000 then "75% of prior revenue" else "DSCR constraint") := rfl
  rw [hb]
  split_ifs with h
  · simpa using h
  · constructor
    · intro hc
      exact absurd hc (by decide)
    · intro hc
      exact absurd hc h

/-! ### Claim C10: the variant operating-expense override -/

/-- Claim C10: the variant `getTotalOpex` returns the single override only
when `operatingExpenses` is nonzero (JavaScript truthiness); an explicit
zero falls through to the sum of the optional breakdown components with
missing components counted as 0. -/
theorem claim_C10_opex_override (i : Variant.Inputs) :
    (i.operatingExpenses ≠ 0 → Variant.getTotalOpex i = i.operatingExpenses) ∧
      (i.operatingExpenses = 0 →
        Variant.getTotalOpex i =
          i.personnelExpenses.getD 0 + i.goodsServicesExpenses.getD 0 +
            i.capitalExpenditures.getD 0) := by
  constructor
  · intro h
    simp [Variant.getTotalOpex, h]
  · intro h
    simp [Variant.getTotalOpex, h]

/-- Variant input with a nonzero operating-expense override. -/
def w10a : Variant.Inputs :=
  { localRevenuePAD := 10, balancingFundPerimbangan := 0, otherTransferCentral := 0
    transferSharingTax := 0, otherFinancialAid := 0, otherLegalRevenue := 0
    financingReceipts := 0, financingExpenditures := 0
    operatingExpenses := 5
    personnelExpenses := some 1, goodsServicesExpenses := some 2, capitalExpenditures := none
    revGrowth := 0, opexGrowth := 0, rate := 0, termYears := 1
    paymentType := PaymentType.equal_principal, debtType := DebtType.ptsmi_other
    allowedDebt := 0, finalDebtTaken := 0
    reserveRatio := 0, minDSCR := 1, initReserve := 0, graceYears := 0 }

/-- Variant input with a zero override and a partial breakdown. -/
def w10b : Variant.Inputs :=
  { w10a with operatingExpenses := 0, personnelExpenses := some 3
              goodsServicesExpenses := some 4, capitalExpenditures := none }

/-- Witness for C10: the override branch and the fallback branch, each at a
concrete input. -/
theorem claim_C10_witness :
    Variant.getTotalOpex w10a = 5 ∧ Variant.getTotalOpex w10b = 7 := by
  constructor
  · have h := (claim_C10_opex_override w10a).1 (by norm_num [w10a])
    exact h.trans (by norm_num [w10a])
  · have h := (claim_C10_opex_override w10b).2 (by norm_num [w10b, w10a])
    exact h.trans (by norm_num [w10b, w10a])

/-! ### Claim C1: the capacity formulas -/

/-- Rendering (following the spec's words) of
`pvAfterGrace = amortYears > 0 ? presentValue(rate, amortYears, maxAnnualDS) / (1+rate)^graceYears : 0`. -/
def pvAfterGraceSpec (i : Inputs) : ℚ :=
  if 0 < i.termYears - i.graceYears then
    pv i.rate (i.termYears - i.graceYears) (computeCapacity i).maxAnnualDS 0 0 /
      (1 + i.rate) ^ i.graceYears
  else 0

/-- Rendering (following the spec's words) of
`capInterestOnly = rate > 0 ? maxAnnualDS / rate : +infinity`, with `⊤`
playing the role of `+infinity`. -/
def capInterestOnlySpec (i : Inputs) : WithTop ℚ :=
  if 0 < i.rate then ((computeCapacity i).maxAnnualDS / i.rate : ℚ) else ⊤

/-- Rendering of `dscrCeiling = min(pvAfterGrace, capInterestOnly)`. -/
def dscrCeilingSpec (i : Inputs) : WithTop ℚ :=
  min (pvAfterGraceSpec i : WithTop ℚ) (capInterestOnlySpec i)

/-- Claim C1: `computeCapacity` returns
`NOI = max(totalRevenue + netFinancing - totalOpex, 0)` (never negative) and
an allowed-debt ceiling `max(0, min(0.75 * totalRevenue, dscrCeiling))` with
`dscrCeiling = min(pvAfterGrace, capInterestOnly)`. -/
theorem claim_C1_capacity_formula (i : Inputs) (hd : 0 < i.minDSCR) :
    (computeCapacity i).NOI
        = max (getTotalRevenue i + getNettFinancing i - getTotalOpex i) 0 ∧
      0 ≤ (computeCapacity i).NOI ∧
      ((computeCapacity i).allowedDebt : WithTop ℚ)
        = max 0 (min ((3 / 4 * getTotalRevenue i : ℚ) : WithTop ℚ) (dscrCeilingSpec i)) := by
  refine ⟨rfl, le_max_right _ _, ?_⟩
  by_cases hr : 0 < i.rate
  · simp only [computeCapacity, dscrCeilingSpec, pvAfterGraceSpec, capInterestOnlySpec,
      if_pos hr, ← WithTop.coe_min, ← WithTop.coe_zero, ← WithTop.coe_max, WithTop.coe_inj]
  · simp only [computeCapacity, dscrCeilingSpec, pvAfterGraceSpec, capInterestOnlySpec,
      if_neg hr]
    rw [min_eq_left le_top]
    simp only [← WithTop.coe_min, ← WithTop.coe_zero, ← WithTop.coe_max, WithTop.coe_inj]

/-- Concrete input for the C1 witness (the spec's worked scenario). -/
def cCap : Inputs :=
  { localRevenuePAD := 1000000000000
    balancingFundPerimbangan := 0
    otherLegalRevenue := 0
    financingReceipts := 0
    financingExpenditures := 0
    personnelExpenses := 800000000000
    goodsServicesExpenses := 0
    capitalExpenditures := 0
    revGrowth := 0
    opexGrowth := 0
    rate := 2 / 25
    termYears := 10
    paymentType := PaymentType.annuity
    reserveRatio := 1
    minDSCR := 5 / 2
    initReserve := 0
    graceYears := 2 }

/-! ### Schedule machinery: helper lemmas about `scheduleStep` / `scheduleRows` -/

/-- Default row used only to state witnesses through `List.getD`. -/
def dRow : Row :=
  { year := 0, begBal := 0, interest := 0, principal := 0, debtService := 0
    revenue := 0, opex := 0, availForDS := 0, dscr := none, reserveTarget := 0
    reserveAlloc := 0, reserveBeg := 0, reserveEnd := 0, surplus := 0 }

theorem scheduleRows_length (i : Inputs) (ann ep : ℚ) (n : ℕ) :
    ∀ (fuel y : ℕ) (pb rv op rb : ℚ),
      (scheduleRows i ann ep n fuel y pb rv op rb).length = fuel := by
  intro fuel
  induction fuel with
  | zero => intro y pb rv op rb; rfl
  | succ f ih =>
    intro y pb rv op rb
    simp only [scheduleRows, List.length_cons, ih]

theorem buildSchedule_length (i : Inputs) (D : ℚ) :
    (buildSchedule i D).length = i.termYears := by
  simp only [buildSchedule]
  exact scheduleRows_length i _ _ i.termYears i.termYears 1 D _ _ _

theorem scheduleStep_begBal (i : Inputs) (ann ep : ℚ) (n y : ℕ)
    (pb rv op rb : ℚ) : (scheduleStep i ann ep n y pb rv op rb).begBal = pb := rfl

theorem scheduleStep_interest_eq (i : Inputs) (ann ep : ℚ) (n y : ℕ)
    (pb rv op rb : ℚ) :
    (scheduleStep i ann ep n y pb rv op rb).interest
      = if y ≤ i.termYears then pb * i.rate else 0 := rfl

theorem scheduleStep_debtService_eq (i : Inputs) (ann ep : ℚ) (n y : ℕ)
    (pb rv op rb : ℚ) :
    (scheduleStep i ann ep n y pb rv op rb).debtService
      = if y ≤ i.graceYears then (scheduleStep i ann ep n y pb rv op rb).interest
        else (scheduleStep i ann ep n y pb rv op rb).interest
          + (scheduleStep i ann ep n y pb rv op rb).principal := rfl

theorem scheduleStep_dscr_eq (i : Inputs) (ann ep : ℚ) (n y : ℕ)
    (pb rv op rb : ℚ) :
    (scheduleStep i ann ep n y pb rv op rb).dscr
      = if 0 < (scheduleStep i ann ep n y pb rv op rb).debtService then
          some ((scheduleStep i ann ep n y pb rv op rb).availForDS
            / (scheduleStep i ann ep n y pb rv op rb).debtService)
        else none := rfl

theorem scheduleStep_principal_nonneg (i : Inputs) (ann ep : ℚ) (n y : ℕ)
    (pb rv op rb : ℚ) : 0 ≤ (scheduleStep i ann ep n y pb rv op rb).principal := by
  simp only [scheduleStep]
  split_ifs <;> first
    | exact le_max_left 0 _
    | exact le_refl _

theorem scheduleStep_principal_le (i : Inputs) (ann ep : ℚ) (n y : ℕ)
    (pb rv op rb : ℚ) (hpb : 0 ≤ pb) :
    (scheduleStep i ann ep n y pb rv op rb).principal ≤ pb := by
  simp only [scheduleStep]
  split_ifs <;> first
    | exact max_le hpb (min_le_left _ _)
    | exact hpb

theorem scheduleStep_interest_nonneg (i : Inputs) (ann ep : ℚ) (n y : ℕ)
    (pb rv op rb : ℚ) (hpb : 0 ≤ pb) (hr : 0 ≤ i.rate) :
    0 ≤ (scheduleStep i ann ep n y pb rv op rb).interest := by
  rw [scheduleStep_interest_eq]
  split_ifs with h
  · exact mul_nonneg hpb hr
  · exact le_refl 0

theorem scheduleStep_debtService_nonneg (i : Inputs) (ann ep : ℚ) (n y : ℕ)
    (pb rv op rb : ℚ) (hpb : 0 ≤ pb) (hr : 0 ≤ i.rate) :
    0 ≤ (scheduleStep i ann ep n y pb rv op rb).debtService := by
  rw [scheduleStep_debtService_eq]
  split_ifs with h
  · exact scheduleStep_interest_nonneg i ann ep n y pb rv op rb hpb hr
  · exact add_nonneg (scheduleStep_interest_nonneg i ann ep n y pb rv op rb hpb hr)
      (scheduleStep_principal_nonneg i ann ep n y pb rv op rb)

theorem scheduleStep_dscr_none_iff (i : Inputs) (ann ep : ℚ) (n y : ℕ)
    (pb rv op rb : ℚ) :
    (scheduleStep i ann ep n y pb rv op rb).dscr = none
      ↔ ¬ 0 < (scheduleStep i ann ep n y pb rv op rb).debtService := by
  rw [scheduleStep_dscr_eq]
  split_ifs with h
  · simp [h]
  · simp [h]

/-- Every member of `scheduleRows` is a `scheduleStep` at some year `y'` in
`[y, y + fuel)`, with a beginning balance that is non-negative whenever the
initial one is. -/
theorem mem_scheduleRows (i : Inputs) (ann ep : ℚ) (n : ℕ) :
    ∀ (fuel y : ℕ) (pb rv op rb : ℚ) (r : Row),
      r ∈ scheduleRows i ann ep n fuel y pb rv op rb →
      ∃ y' pb' rv' op' rb',
        r = scheduleStep i ann ep n y' pb' rv' op' rb' ∧
          y ≤ y' ∧ y' < y + fuel ∧ (0 ≤ pb → 0 ≤ pb') := by
  intro fuel
  induction fuel with
  | zero =>
    intro y pb rv op rb r h
    simp [scheduleRows] at h
  | succ f ih =>
    intro y pb rv op rb r h
    simp only [scheduleRows, List.mem_cons] at h
    rcases h with h | h
    · exact ⟨y, pb, rv, op, rb, h, le_refl y, by omega, fun hp => hp⟩
    · obtain ⟨y', pb', rv', op', rb', heq, hy1, hy2, hpb⟩ := ih (y + 1) _ _ _ _ r h
      exact ⟨y', pb', rv', op', rb', heq, by omega, by omega,
        fun _ => hpb (le_max_right _ _)⟩

theorem scheduleRows_balance_chain (i : Inputs) (ann ep : ℚ) (n : ℕ) :
    ∀ (fuel y : ℕ) (pb rv op rb : ℚ), 0 ≤ pb →
      List.Chain' (fun a b => b.begBal ≤ a.begBal)
        (scheduleRows i ann ep n fuel y pb rv op rb) := by
  intro fuel
  induction fuel with
  | zero =>
    intro y pb rv op rb _
    simp [scheduleRows]
  | succ f ih =>
    intro y pb rv op rb hpb
    simp only [scheduleRows]
    rw [List.chain'_cons']
    constructor
    · intro b hb
      cases f with
      | zero => simp [scheduleRows] at hb
      | succ f' =>
        simp only [scheduleRows, List.head?_cons, Option.mem_def, Option.some_inj] at hb
        rw [← hb, scheduleStep_begBal, scheduleStep_begBal]
        exact max_le
          (by linarith [scheduleStep_principal_nonneg i ann ep n y pb rv op rb]) hpb
    · exact ih (y + 1) _ _ _ _ (le_max_right _ _)

theorem scheduleStep_principal_eq (i : Inputs) (ann ep : ℚ) (n y : ℕ)
    (pb rv op rb : ℚ) :
    (scheduleStep i ann ep n y pb rv op rb).principal
      = if ¬ y ≤ i.graceYears ∧ y ≤ i.termYears then
          if i.paymentType = PaymentType.annuity then
            max 0 (min pb (ann - (if y ≤ i.termYears then pb * i.rate else 0)))
          else max 0 (min pb ep)
        else 0 := rfl

theorem scheduleStep_reserveTarget_eq (i : Inputs) (ann ep : ℚ) (n y : ℕ)
    (pb rv op rb : ℚ) :
    (scheduleStep i ann ep n y pb rv op rb).reserveTarget
      = if y < n then
          (if y + 1 ≤ i.graceYears then
            (max (pb - (scheduleStep i ann ep n y pb rv op rb).principal) 0) * i.rate
          else
            (max (pb - (scheduleStep i ann ep n y pb rv op rb).principal) 0) * i.rate +
              (if y + 1 ≤ i.graceYears then 0
               else if i.paymentType = PaymentType.annuity ∧ 0 < i.termYears - i.graceYears then
                 max 0 (min (max (pb - (scheduleStep i ann ep n y pb rv op rb).principal) 0)
                   (ann - (max (pb - (scheduleStep i ann ep n y pb rv op rb).principal) 0) * i.rate))
               else if 0 < i.termYears - i.graceYears then
                 max 0 (min (max (pb - (scheduleStep i ann ep n y pb rv op rb).principal) 0) ep)
               else 0))
        else 0 := rfl

/-- The look-ahead recomputation of next year's debt service at year `y`
agrees with the actual debt-service computation of year `y + 1`, for any
next-year revenue/opex/reserve state (debt service does not depend on
those). -/
theorem scheduleStep_lookahead (i : Inputs) (ann ep : ℚ) (y : ℕ)
    (pb rv op rb rv' op' rb' : ℚ) (hy : y + 1 ≤ i.termYears) :
    (scheduleStep i ann ep i.termYears y pb rv op rb).reserveTarget
      = (scheduleStep i ann ep i.termYears (y + 1)
          (max (pb - (scheduleStep i ann ep i.termYears y pb rv op rb).principal) 0)
          rv' op' rb').debtService := by
  rw [scheduleStep_reserveTarget_eq, scheduleStep_debtService_eq,
    scheduleStep_interest_eq, scheduleStep_principal_eq, scheduleStep_principal_eq]
  rw [if_pos (show y < i.termYears by omega)]
  simp only [if_pos hy]
  by_cases hg : y + 1 ≤ i.graceYears
  · simp only [if_pos hg]
  · simp only [if_neg hg]
    rw [if_pos (show ¬ y + 1 ≤ i.graceYears ∧ y + 1 ≤ i.termYears from ⟨hg, hy⟩)]
    congr 1
    have hamort : 0 < i.termYears - i.graceYears := by omega
    by_cases hpt : i.paymentType = PaymentType.annuity
    · rw [if_pos (⟨hpt, hamort⟩ : _ ∧ _), if_pos hpt, if_pos hpt]
    · rw [if_neg (fun hc => hpt hc.1), if_pos hamort, if_neg hpt, if_neg hpt]

theorem scheduleRows_reserve_chain (i : Inputs) (ann ep : ℚ) :
    ∀ (fuel y : ℕ) (pb rv op rb : ℚ), y + fuel = i.termYears + 1 →
      List.Chain' (fun a b => a.reserveTarget = b.debtService)
        (scheduleRows i ann ep i.termYears fuel y pb rv op rb) := by
  intro fuel
  induction fuel with
  | zero =>
    intro y pb rv op rb _
    simp [scheduleRows]
  | succ f ih =>
    intro y pb rv op rb hsum
    simp only [scheduleRows]
    rw [List.chain'_cons']
    constructor
    · intro b hb
      cases f with
      | zero => simp [scheduleRows] at hb
      | succ f' =>
        simp only [scheduleRows, List.head?_cons, Option.mem_def, Option.some_inj] at hb
        rw [← hb]
        exact scheduleStep_lookahead i ann ep y pb rv op rb _ _ _ (by omega)
    · exact ih (y + 1) _ _ _ _ (by omega)

theorem scheduleRows_last_reserve (i : Inputs) (ann ep : ℚ) :
    ∀ (fuel y : ℕ) (pb rv op rb : ℚ), y + fuel = i.termYears + 1 →
      ((scheduleRows i ann ep i.termYears fuel y pb rv op rb).getLast?).elim True
        (fun r => r.reserveTarget = 0) := by
  intro fuel
  induction fuel with
  | zero =>
    intro y pb rv op rb _
    simp [scheduleRows]
  | succ f ih =>
    intro y pb rv op rb hsum
    cases f with
    | zero =>
      simp only [scheduleRows, List.getLast?_singleton, Option.elim]
      rw [scheduleStep_reserveTarget_eq, if_neg (show ¬ y < i.termYears by omega)]
    | succ f' =>
      have h := ih (y + 1)
        (max (pb - (scheduleStep i ann ep i.termYears y pb rv op rb).principal) 0)
        (rv * (1 + i.revGrowth)) (op * (1 + i.opexGrowth))
        ((scheduleStep i ann ep i.termYears y pb rv op rb).reserveEnd) (by omega)
      simp only [scheduleRows] at h ⊢
      rw [List.getLast?_cons_cons]
      exact h

/-! ### Variant-engine schedule machinery -/

theorem vScheduleRows_length (i : Variant.Inputs) (actual ann ep : ℚ) (n : ℕ) :
    ∀ (fuel y : ℕ) (pb rv op rb : ℚ),
      (Variant.scheduleRows i actual ann ep n fuel y pb rv op rb).length = fuel := by
  intro fuel
  induction fuel with
  | zero => intro y pb rv op rb; rfl
  | succ f ih =>
    intro y pb rv op rb
    simp only [Variant.scheduleRows, List.length_cons, ih]

theorem vBuildSchedule_length (i : Variant.Inputs) :
    (Variant.buildSchedule i).length = i.termYears := by
  simp only [Variant.buildSchedule]
  exact vScheduleRows_length i _ _ _ i.termYears i.termYears 1 _ _ _ _

theorem vMem_scheduleRows (i : Variant.Inputs) (actual ann ep : ℚ) (n : ℕ) :
    ∀ (fuel y : ℕ) (pb rv op rb : ℚ) (r : Row),
      r ∈ Variant.scheduleRows i actual ann ep n fuel y pb rv op rb →
      ∃ y' pb' rv' op' rb',
        r = Variant.scheduleStep i actual ann ep n y' pb' rv' op' rb' ∧
          y ≤ y' ∧ y' < y + fuel ∧ (0 ≤ pb → 0 ≤ pb') := by
  intro fuel
  induction fuel with
  | zero =>
    intro y pb rv op rb r h
    simp [Variant.scheduleRows] at h
  | succ f ih =>
    intro y pb rv op rb r h
    simp only [Variant.scheduleRows, List.mem_cons] at h
    rcases h with h | h
    · exact ⟨y, pb, rv, op, rb, h, le_refl y, by omega, fun hp => hp⟩
    · obtain ⟨y', pb', rv', op', rb', heq, hy1, hy2, hpb⟩ := ih (y + 1) _ _ _ _ r h
      exact ⟨y', pb', rv', op', rb', heq, by omega, by omega,
        fun _ => hpb (le_max_right _ _)⟩

theorem vStep_interest_eq (i : Variant.Inputs) (actual ann ep : ℚ) (n y : ℕ)
    (pb rv op rb : ℚ) :
    (Variant.scheduleStep i actual ann ep n y pb rv op rb).interest
      = if y ≤ i.termYears then
          (if i.debtType = DebtType.bond then actual * i.rate else pb * i.rate)
        else 0 := rfl

theorem vStep_debtService_eq (i : Variant.Inputs) (actual ann ep : ℚ) (n y : ℕ)
    (pb rv op rb : ℚ) :
    (Variant.scheduleStep i actual ann ep n y pb rv op rb).debtService
      = if y ≤ i.graceYears then
          (Variant.scheduleStep i actual ann ep n y pb rv op rb).interest
        else (Variant.scheduleStep i actual ann ep n y pb rv op rb).interest
          + (Variant.scheduleStep i actual ann ep n y pb rv op rb).principal := rfl

theorem vStep_principal_eq (i : Variant.Inputs) (actual ann ep : ℚ) (n y : ℕ)
    (pb rv op rb : ℚ) :
    (Variant.scheduleStep i actual ann ep n y pb rv op rb).principal
      = if ¬ y ≤ i.graceYears ∧ y ≤ i.termYears then
          if i.debtType = DebtType.bond then
            max 0 (min pb (actual / (i.termYears : ℚ)))
          else if i.paymentType = PaymentType.annuity then
            max 0 (min pb (ann - (if y ≤ i.termYears then
              (if i.debtType = DebtType.bond then actual * i.rate else pb * i.rate)
              else 0)))
          else max 0 (min pb ep)
        else 0 := rfl

theorem vStep_reserveTarget_eq (i : Variant.Inputs) (actual ann ep : ℚ) (n y : ℕ)
    (pb rv op rb : ℚ) :
    (Variant.scheduleStep i actual ann ep n y pb rv op rb).reserveTarget
      = if y < n then
          (if y + 1 ≤ i.graceYears then
            (if i.debtType = DebtType.bond then actual * i.rate
             else (max (pb - (Variant.scheduleStep i actual ann ep n y pb rv op rb).principal) 0) * i.rate)
          else
            (if i.debtType = DebtType.bond then actual * i.rate
             else (max (pb - (Variant.scheduleStep i actual ann ep n y pb rv op rb).principal) 0) * i.rate) +
              (if y + 1 ≤ i.graceYears then 0
               else if i.debtType = DebtType.bond then
                 max 0 (min (max (pb - (Variant.scheduleStep i actual ann ep n y pb rv op rb).principal) 0)
                   (actual / (i.termYears : ℚ)))
               else if i.paymentType = PaymentType.annuity ∧ 0 < i.termYears - i.graceYears then
                 max 0 (min (max (pb - (Variant.scheduleStep i actual ann ep n y pb rv op rb).principal) 0)
                   (ann - (if i.debtType = DebtType.bond then actual * i.rate
                     else (max (pb - (Variant.scheduleStep i actual ann ep n y pb rv op rb).principal) 0) * i.rate)))
               else if 0 < i.termYears - i.graceYears then
                 max 0 (min (max (pb - (Variant.scheduleStep i actual ann ep n y pb rv op rb).principal) 0) ep)
               else 0))
        else 0 := rfl

/-- Variant-engine analogue of the look-ahead agreement lemma. -/
theorem vStep_lookahead (i : Variant.Inputs) (actual ann ep : ℚ) (y : ℕ)
    (pb rv op rb rv' op' rb' : ℚ) (hy : y + 1 ≤ i.termYears) :
    (Variant.scheduleStep i actual ann ep i.termYears y pb rv op rb).reserveTarget
      = (Variant.scheduleStep i actual ann ep i.termYears (y + 1)
          (max (pb - (Variant.scheduleStep i actual ann ep i.termYears y pb rv op rb).principal) 0)
          rv' op' rb').debtService := by
  rw [vStep_reserveTarget_eq, vStep_debtService_eq, vStep_interest_eq,
    vStep_principal_eq, vStep_principal_eq]
  rw [if_pos (show y < i.termYears by omega)]
  simp only [if_pos hy]
  by_cases hbd : i.debtType = DebtType.bond
  · simp only [if_pos hbd]
    by_cases hg : y + 1 ≤ i.graceYears
    · simp only [if_pos hg]
    · simp only [if_neg hg]
      rw [if_pos (show ¬ y + 1 ≤ i.graceYears ∧ y + 1 ≤ i.termYears from ⟨hg, hy⟩)]
  · simp only [if_neg hbd]
    by_cases hg : y + 1 ≤ i.graceYears
    · simp only [if_pos hg]
    · simp only [if_neg hg]
      rw [if_pos (show ¬ y + 1 ≤ i.graceYears ∧ y + 1 ≤ i.termYears from ⟨hg, hy⟩)]
      congr 1
      have hamort : 0 < i.termYears - i.graceYears := by omega
      by_cases hpt : i.paymentType = PaymentType.annuity
      · rw [if_pos (⟨hpt, hamort⟩ : _ ∧ _), if_pos hpt, if_pos hpt]
      · rw [if_neg (fun hc => hpt hc.1), if_pos hamort, if_neg hpt, if_neg hpt]

theorem vRows_reserve_chain (i : Variant.Inputs) (actual ann ep : ℚ) :
    ∀ (fuel y : ℕ) (pb rv op rb : ℚ), y + fuel = i.termYears + 1 →
      List.Chain' (fun a b => a.reserveTarget = b.debtService)
        (Variant.scheduleRows i actual ann ep i.termYears fuel y pb rv op rb) := by
  intro fuel
  induction fuel with
  | zero =>
    intro y pb rv op rb _
    simp [Variant.scheduleRows]
  | succ f ih =>
    intro y pb rv op rb hsum
    simp only [Variant.scheduleRows]
    rw [List.chain'_cons']
    constructor
    · intro b hb
      cases f with
      | zero => simp [Variant.scheduleRows] at hb
      | succ f' =>
        simp only [Variant.scheduleRows, List.head?_cons, Option.mem_def,
          Option.some_inj] at hb
        rw [← hb]
        exact vStep_lookahead i actual ann ep y pb rv op rb _ _ _ (by omega)
    · exact ih (y + 1) _ _ _ _ (by omega)

theorem vRows_last_reserve (i : Variant.Inputs) (actual ann ep : ℚ) :
    ∀ (fuel y : ℕ) (pb rv op rb : ℚ), y + fuel = i.termYears + 1 →
      ((Variant.scheduleRows i actual ann ep i.termYears fuel y pb rv op rb).getLast?).elim
        True (fun r => r.reserveTarget = 0) := by
  intro fuel
  induction fuel with
  | zero =>
    intro y pb rv op rb _
    simp [Variant.scheduleRows]
  | succ f ih =>
    intro y pb rv op rb hsum
    cases f with
    | zero =>
      simp only [Variant.scheduleRows, List.getLast?_singleton, Option.elim]
      rw [vStep_reserveTarget_eq, if_neg (show ¬ y < i.termYears by omega)]
    | succ f' =>
      have h := ih (y + 1)
        (max (pb - (Variant.scheduleStep i actual ann ep i.termYears y pb rv op rb).principal) 0)
        (rv * (1 + i.revGrowth)) (op * (1 + i.opexGrowth))
        ((Variant.scheduleStep i actual ann ep i.termYears y pb rv op rb).reserveEnd)
        (by omega)
      simp only [Variant.scheduleRows] at h ⊢
      rw [List.getLast?_cons_cons]
      exact h

/-! ### Claim C2: bond-type interest is constant -/

/-- Claim C2: in the variant engine, when `debtType` is `bond`, every
schedule row's interest equals `actualPrincipal * rate` — constant across
years, never declining as principal is repaid. -/
theorem claim_C2_bond_interest (i : Variant.Inputs) (hb : i.debtType = DebtType.bond) :
    ∀ r ∈ Variant.buildSchedule i, r.interest = Variant.actualDebt i * i.rate := by
  intro r hm
  simp only [Variant.buildSchedule] at hm
  obtain ⟨y', pb', rv', op', rb', heq, hy1, hy2, _⟩ :=
    vMem_scheduleRows i _ _ _ i.termYears i.termYears 1 _ _ _ _ r hm
  subst heq
  rw [vStep_interest_eq, if_pos (show y' ≤ i.termYears by omega), if_pos hb]

/-- The claim's concrete bond scenario: actual principal 10^12, rate 8%,
ten years. -/
def cBond : Variant.Inputs :=
  { localRevenuePAD := 2000000000000, balancingFundPerimbangan := 0
    otherTransferCentral := 0, transferSharingTax := 0, otherFinancialAid := 0
    otherLegalRevenue := 0
    financingReceipts := 0, financingExpenditures := 0
    operatingExpenses := 500000000000
    personnelExpenses := none, goodsServicesExpenses := none, capitalExpenditures := none
    revGrowth := 0, opexGrowth := 0
    rate := 2 / 25
    termYears := 10
    paymentType := PaymentType.equal_principal
    debtType := DebtType.bond
    allowedDebt := 1000000000000
    finalDebtTaken := 1000000000000
    reserveRatio := 1, minDSCR := 5 / 2, initReserve := 0, graceYears := 0 }

/-- Witness for C2: in the concrete bond scenario, the first row's interest
is 80 000 000 000 (= 10^12 * 0.08). -/
theorem claim_C2_witness :
    ((Variant.buildSchedule cBond).getD 0 dRow).interest = 80000000000 := by
  have hlen : 0 < (Variant.buildSchedule cBond).length := by
    rw [vBuildSchedule_length]
    norm_num [cBond]
  rw [List.getD_eq_get _ _ hlen]
  have h := claim_C2_bond_interest cBond rfl _ (List.get_mem _ 0 hlen)
  rw [h]
  norm_num [Variant.actualDebt, cBond, min_def]

/-! ### Claim C4: the reserve target is next year's debt service -/

/-- Claim C4: in both engines, each row's `reserveTarget` equals the next
row's `debtService` (the look-ahead recomputation agrees with the actual
next-year computation), and the final row's `reserveTarget` is 0. -/
theorem claim_C4_reserve_lookahead :
    (∀ (i : Inputs) (D : ℚ),
        List.Chain' (fun a b => a.reserveTarget = b.debtService) (buildSchedule i D) ∧
          ((buildSchedule i D).getLast?).elim True (fun r => r.reserveTarget = 0)) ∧
      ∀ i : Variant.Inputs,
        List.Chain' (fun a b => a.reserveTarget = b.debtService) (Variant.buildSchedule i) ∧
          ((Variant.buildSchedule i).getLast?).elim True (fun r => r.reserveTarget = 0) := by
  constructor
  · intro i D
    constructor
    · simp only [buildSchedule]
      exact scheduleRows_reserve_chain i _ _ i.termYears 1 D _ _ _ (by omega)
    · simp only [buildSchedule]
      exact scheduleRows_last_reserve i _ _ i.termYears 1 D _ _ _ (by omega)
  · intro i
    constructor
    · simp only [Variant.buildSchedule]
      exact vRows_reserve_chain i _ _ _ i.termYears 1 _ _ _ _ (by omega)
    · simp only [Variant.buildSchedule]
      exact vRows_last_reserve i _ _ _ i.termYears 1 _ _ _ _ (by omega)

/-! ### Claim C3: balance invariants of the schedule -/

/-- Claim C3: for every schedule built from a non-negative principal, every
row has a non-negative beginning balance, the principal paid never exceeds
the beginning balance (so the final balance stays ≥ 0), and beginning
balances are non-increasing year over year. -/
theorem claim_C3_balance_invariants (i : Inputs) (D : ℚ) (hD : 0 ≤ D) :
    (∀ r ∈ buildSchedule i D, 0 ≤ r.begBal ∧ r.principal ≤ r.begBal) ∧
      List.Chain' (fun a b => b.begBal ≤ a.begBal) (buildSchedule i D) := by
  constructor
  · intro r hm
    simp only [buildSchedule] at hm
    obtain ⟨y', pb', rv', op', rb', heq, _, _, hpb⟩ :=
      mem_scheduleRows i _ _ i.termYears i.termYears 1 D _ _ _ r hm
    have hpb' : 0 ≤ pb' := hpb hD
    subst heq
    rw [scheduleStep_begBal]
    exact ⟨hpb', scheduleStep_principal_le _ _ _ _ _ _ _ _ _ hpb'⟩
  · simp only [buildSchedule]
    exact scheduleRows_balance_chain i _ _ i.termYears i.termYears 1 D _ _ _ hD

/-- Witness for C3 at the spec's worked scenario, principal 100. -/
theorem claim_C3_witness :
    (0 ≤ ((buildSchedule cCap 100).getD 0 dRow).begBal ∧
        ((buildSchedule cCap 100).getD 0 dRow).principal
          ≤ ((buildSchedule cCap 100).getD 0 dRow).begBal) ∧
      List.Chain' (fun a b => b.begBal ≤ a.begBal) (buildSchedule cCap 100) := by
  have h := claim_C3_balance_invariants cCap 100 (by norm_num)
  have hlen : 0 < (buildSchedule cCap 100).length := by
    rw [buildSchedule_length]
    norm_num [cCap]
  refine ⟨?_, h.2⟩
  rw [List.getD_eq_get _ _ hlen]
  exact h.1 _ (List.get_mem _ 0 hlen)

/-! ### Claim C7: DSCR nullity -/

/-- Claim C7: with a non-negative rate and principal, a row's `dscr` is null
exactly when its `debtService` is zero (and otherwise equals
`availForDS / debtService`, which is how the row is constructed). -/
theorem claim_C7_dscr_nullity (i : Inputs) (D : ℚ) (hD : 0 ≤ D) (hr : 0 ≤ i.rate) :
    ∀ r ∈ buildSchedule i D, (r.dscr = none ↔ r.debtService = 0) := by
  intro r hm
  simp only [buildSchedule] at hm
  obtain ⟨y', pb', rv', op', rb', heq, _, _, hpb⟩ :=
    mem_scheduleRows i _ _ i.termYears i.termYears 1 D _ _ _ r hm
  have hpb' : 0 ≤ pb' := hpb hD
  subst heq
  rw [scheduleStep_dscr_none_iff]
  constructor
  · intro h
    exact le_antisymm (not_lt.mp h)
      (scheduleStep_debtService_nonneg _ _ _ _ _ _ _ _ _ hpb' hr)
  · intro h
    rw [h]
    exact lt_irrefl 0

/-- Witness for C7 at the spec's worked scenario, principal 100. -/
theorem claim_C7_witness :
    ((buildSchedule cCap 100).getD 0 dRow).dscr = none
      ↔ ((buildSchedule cCap 100).getD 0 dRow).debtService = 0 := by
  have hlen : 0 < (buildSchedule cCap 100).length := by
    rw [buildSchedule_length]
    norm_num [cCap]
  rw [List.getD_eq_get _ _ hlen]
  exact claim_C7_dscr_nullity cCap 100 (by norm_num) (by norm_num [cCap]) _
    (List.get_mem _ 0 hlen)

/-- Witness for C1 at the spec's worked scenario. -/
theorem claim_C1_witness :
    (computeCapacity cCap).NOI
        = max (getTotalRevenue cCap + getNettFinancing cCap - getTotalOpex cCap) 0 ∧
      0 ≤ (computeCapacity cCap).NOI ∧
      ((computeCapacity cCap).allowedDebt : WithTop ℚ)
        = max 0 (min ((3 / 4 * getTotalRevenue cCap : ℚ) : WithTop ℚ) (dscrCeilingSpec cCap)) :=
  claim_C1_capacity_formula cCap (by norm_num [cCap])

/-! ### Claim C5: monotonicity of the allowed-debt ceiling -/

/-- The DSCR-driven ceiling of `computeCapacity` as a function of the rate,
the term/grace years and the maximum annual debt service `m`. -/
def dscrPVFun (rate : ℚ) (term grace : ℕ) (m : ℚ) : ℚ :=
  let pvAG :=
    if 0 < term - grace then pv rate (term - grace) m 0 0 / (1 + rate) ^ grace
    else 0
  if 0 < rate then min pvAG (m / rate) else pvAG

/-- The allowed-debt ceiling of `computeCapacity` as a function of its
numeric ingredients (rate, years, total revenue `R`, net financing `F`,
total opex `O`, DSCR floor `d`). -/
def allowedDebtFun (rate : ℚ) (term grace : ℕ) (R F O d : ℚ) : ℚ :=
  max 0 (min (3 / 4 * R) (dscrPVFun rate term grace (max (R + F - O) 0 / d)))

theorem computeCapacity_allowedDebt_eq (i : Inputs) :
    (computeCapacity i).allowedDebt
      = allowedDebtFun i.rate i.termYears i.graceYears (getTotalRevenue i)
          (getNettFinancing i) (getTotalOpex i) i.minDSCR := rfl

theorem pv_mono_pmt (rate : ℚ) (n : ℕ) (hr : 0 ≤ rate) {m1 m2 : ℚ}
    (h : m1 ≤ m2) : pv rate n m1 0 0 ≤ pv rate n m2 0 0 := by
  unfold pv
  split_ifs with h0 hr0
  · exact le_refl 0
  · simp only [add_zero]
    exact mul_le_mul_of_nonneg_right h (Nat.cast_nonneg n)
  · have hrpos : 0 < rate := lt_of_le_of_ne hr (Ne.symm hr0)
    have hb : (1 : ℚ) ≤ 1 + rate := by linarith
    have hpow : (1 : ℚ) ≤ (1 + rate) ^ n := one_le_pow₀ hb
    have hinv : ((1 + rate) ^ n)⁻¹ ≤ 1 := inv_le_one hpow
    have hc : 0 ≤ (1 - ((1 + rate) ^ n)⁻¹) / rate :=
      div_nonneg (by linarith) (le_of_lt hrpos)
    simp only [mul_zero, add_zero, zero_mul, mul_one]
    exact mul_le_mul_of_nonneg_right h hc

theorem dscrPVFun_mono (rate : ℚ) (term grace : ℕ) (hr : 0 ≤ rate)
    {m1 m2 : ℚ} (h : m1 ≤ m2) :
    dscrPVFun rate term grace m1 ≤ dscrPVFun rate term grace m2 := by
  simp only [dscrPVFun]
  have hpow : (0 : ℚ) < (1 + rate) ^ grace := pow_pos (by linarith) grace
  have hAG :
      (if 0 < term - grace then pv rate (term - grace) m1 0 0 / (1 + rate) ^ grace else 0)
        ≤ (if 0 < term - grace then pv rate (term - grace) m2 0 0 / (1 + rate) ^ grace else 0) := by
    split_ifs with ha
    · exact (div_le_div_right hpow).mpr (pv_mono_pmt rate _ hr h)
    · exact le_refl 0
  by_cases hrate : 0 < rate
  · rw [if_pos hrate, if_pos hrate]
    exact min_le_min hAG ((div_le_div_right hrate).mpr h)
  · rw [if_neg hrate, if_neg hrate]
    exact hAG

theorem allowedDebtFun_anti_d (rate : ℚ) (term grace : ℕ) (R F O : ℚ)
    {d1 d2 : ℚ} (hr : 0 ≤ rate) (hd1 : 0 < d1) (hd : d1 ≤ d2) :
    allowedDebtFun rate term grace R F O d2 ≤ allowedDebtFun rate term grace R F O d1 := by
  unfold allowedDebtFun
  refine max_le_max (le_refl 0) (min_le_min (le_refl _) ?_)
  exact dscrPVFun_mono rate term grace hr
    (div_le_div_of_nonneg_left (le_max_right _ _) hd1 hd)

theorem allowedDebtFun_mono_R (rate : ℚ) (term grace : ℕ) (F O d : ℚ)
    {R1 R2 : ℚ} (hr : 0 ≤ rate) (hd : 0 < d) (h : R1 ≤ R2) :
    allowedDebtFun rate term grace R1 F O d ≤ allowedDebtFun rate term grace R2 F O d := by
  unfold allowedDebtFun
  refine max_le_max (le_refl 0)
    (min_le_min (mul_le_mul_of_nonneg_left h (by norm_num)) ?_)
  refine dscrPVFun_mono rate term grace hr ((div_le_div_right hd).mpr ?_)
  exact max_le_max (by linarith) (le_refl 0)

/-- Claim C5: holding all other inputs fixed (with a non-negative rate and a
positive DSCR floor, the engine's intended domain), raising `minDSCR` never
raises the allowed-debt ceiling, and raising any single revenue component
never lowers it. -/
theorem claim_C5_ceiling_monotonicity (i : Inputs) (hr : 0 ≤ i.rate)
    (hd : 0 < i.minDSCR) :
    (∀ d2, i.minDSCR ≤ d2 →
        (computeCapacity { i with minDSCR := d2 }).allowedDebt
          ≤ (computeCapacity i).allowedDebt) ∧
      (∀ δ, 0 ≤ δ →
        (computeCapacity i).allowedDebt
          ≤ (computeCapacity { i with localRevenuePAD := i.localRevenuePAD + δ }).allowedDebt) ∧
      (∀ δ, 0 ≤ δ →
        (computeCapacity i).allowedDebt
          ≤ (computeCapacity { i with
              balancingFundPerimbangan := i.balancingFundPerimbangan + δ }).allowedDebt) ∧
      (∀ δ, 0 ≤ δ →
        (computeCapacity i).allowedDebt
          ≤ (computeCapacity { i with
              otherLegalRevenue := i.otherLegalRevenue + δ }).allowedDebt) := by
  refine ⟨?_, ?_, ?_, ?_⟩
  · intro d2 hle
    show allowedDebtFun i.rate i.termYears i.graceYears (getTotalRevenue i)
        (getNettFinancing i) (getTotalOpex i) d2
      ≤ allowedDebtFun i.rate i.termYears i.graceYears (getTotalRevenue i)
        (getNettFinancing i) (getTotalOpex i) i.minDSCR
    exact allowedDebtFun_anti_d _ _ _ _ _ _ hr hd hle
  · intro δ hδ
    show allowedDebtFun i.rate i.termYears i.graceYears
        (i.localRevenuePAD + i.balancingFundPerimbangan + i.otherLegalRevenue)
        (getNettFinancing i) (getTotalOpex i) i.minDSCR
      ≤ allowedDebtFun i.rate i.termYears i.graceYears
        (i.localRevenuePAD + δ + i.balancingFundPerimbangan + i.otherLegalRevenue)
        (getNettFinancing i) (getTotalOpex i) i.minDSCR
    exact allowedDebtFun_mono_R _ _ _ _ _ _ hr hd (by linarith)
  · intro δ hδ
    show allowedDebtFun i.rate i.termYears i.graceYears
        (i.localRevenuePAD + i.balancingFundPerimbangan + i.otherLegalRevenue)
        (getNettFinancing i) (getTotalOpex i) i.minDSCR
      ≤ allowedDebtFun i.rate i.termYears i.graceYears
        (i.localRevenuePAD + (i.balancingFundPerimbangan + δ) + i.otherLegalRevenue)
        (getNettFinancing i) (getTotalOpex i) i.minDSCR
    exact allowedDebtFun_mono_R _ _ _ _ _ _ hr hd (by linarith)
  · intro δ hδ
    show allowedDebtFun i.rate i.termYears i.graceYears
        (i.localRevenuePAD + i.balancingFundPerimbangan + i.otherLegalRevenue)
        (getNettFinancing i) (getTotalOpex i) i.minDSCR
      ≤ allowedDebtFun i.rate i.termYears i.graceYears
        (i.localRevenuePAD + i.balancingFundPerimbangan + (i.otherLegalRevenue + δ))
        (getNettFinancing i) (getTotalOpex i) i.minDSCR
    exact allowedDebtFun_mono_R _ _ _ _ _ _ hr hd (by linarith)

/-- Witness for C5 at the spec's worked scenario: raising the DSCR floor
from 2.5 to 3 and raising a revenue component by 5. -/
theorem claim_C5_witness :
    (computeCapacity { cCap with minDSCR := 3 }).allowedDebt
        ≤ (computeCapacity cCap).allowedDebt ∧
      (computeCapacity cCap).allowedDebt
        ≤ (computeCapacity { cCap with
            localRevenuePAD := cCap.localRevenuePAD + 5 }).allowedDebt := by
  have h := claim_C5_ceiling_monotonicity cCap (by norm_num [cCap]) (by norm_num [cCap])
  exact ⟨h.1 3 (by norm_num [cCap]), h.2.1 5 (by norm_num)⟩

end MunicipalDebt
